import Mathlib

set_option autoImplicit false

namespace PBBES

/-!
Shallow embedding of the pbbes core (Device.py, IntervalScheduler.py,
KeyboardInput.py). Strings are Lean strings (Python 3 str over code points),
bytes are natural numbers below 256, and wall-clock times are rationals
(the scheduler only adds and compares time values).
-/

/-! ## Python string primitives used by Device.py -/

/-- Whitespace characters recognised by Python str.split and int(). -/
def isPySpace (c : Char) : Bool :=
  c == ' ' || c == '\t' || c == '\n' || c == '\r' || c == '\x0b' || c == '\x0c'

/-- Accumulate a nonempty run of decimal digits; any non-digit fails. -/
def parseDigitsAux : List Char → Nat → Option Nat
  | [], acc => some acc
  | c :: cs, acc =>
    if c.isDigit then parseDigitsAux cs (acc * 10 + (c.toNat - 48)) else none

/-- Parse a nonempty all-digit character list as a natural number. -/
def parseDigits : List Char → Option Nat
  | [] => none
  | c :: cs => parseDigitsAux (c :: cs) 0

/-- Python int(s) on a str argument: strip whitespace on both sides, then an
optional sign followed by a nonempty digit string; anything else raises
ValueError (modelled as none). Underscore digit grouping is not modelled;
device replies never contain it. -/
def pyInt (s : String) : Option Int :=
  let cs := ((s.data.dropWhile isPySpace).reverse.dropWhile isPySpace).reverse
  match cs with
  | '-' :: rest => (parseDigits rest).map (fun n => -(n : Int))
  | '+' :: rest => (parseDigits rest).map (fun n => (n : Int))
  | rest => (parseDigits rest).map (fun n => (n : Int))

/-- Python s[:k] on a str: the first k code points. -/
def pyTake (k : Nat) (s : String) : String :=
  ⟨s.data.take k⟩

/-- Python s.split() with no separator: split on whitespace runs, dropping
empty fields. -/
def pySplit (s : String) : List String :=
  ((s.data.splitOnP isPySpace).filter (fun l => !l.isEmpty)).map (fun l => ⟨l⟩)

/-- Python format spec 0<w> applied to a natural number: decimal digits,
left-padded with zeros to width w. -/
def padZero (w : Nat) (n : Nat) : String :=
  let s := toString n
  ⟨List.replicate (w - s.length) '0' ++ s.data⟩

/-- Python s.replace of the linefeed character by a space, as used by
Device.commands. -/
def replaceLF (s : String) : String :=
  ⟨s.data.map (fun c => if c = '\n' then ' ' else c)⟩

/-! ## Device.__transact (the transaction engine) -/

/-- Failure modes of a transaction, matching the ValueError messages raised by
Device.__transact: a read timeout from readln, the device replying ERROR, and
a two-line reply whose second line is not OK. -/
inductive TransactError where
  | readTimeout
  | deviceError
  | protocolViolation
  deriving DecidableEq

/-- Errors that can escape the Device methods built on the transaction: a
transaction failure, or a ValueError from int() applied to a reply value. -/
inductive PyError where
  | transact (e : TransactError)
  | valueError
  deriving DecidableEq

/-- Embedding of Device.__transact over the list of reply lines the device
makes available (each line was terminated by a linefeed on the wire; readln
strips it, and an exhausted list is a read timeout). The first line OK is the
bare acknowledgement; the first line ERROR raises; otherwise the first line is
the value and the second line must be OK, else the reply is malformed. -/
def transact (reply : List String) : Except TransactError String :=
  match reply with
  | [] => Except.error TransactError.readTimeout
  | l1 :: rest =>
    if l1 = "OK" then Except.ok "OK"
    else if l1 = "ERROR" then Except.error TransactError.deviceError
    else
      match rest with
      | [] => Except.error TransactError.readTimeout
      | l2 :: _ => if l2 = "OK" then Except.ok l1 else Except.error TransactError.protocolViolation

/-! ## Device.meas -/

/-- The selector 99 list comprehension of Device.meas: split the value line on
whitespace and apply int() to every token; a single failing token raises. -/
def pyIntFields (val : String) : Option (List Int) :=
  (pySplit val).mapM pyInt

/-- Result of Device.meas: a decoded integer, the ordered list for selector 99,
or the opaque marker string returned for an unhandled selector. -/
inductive MeasValue where
  | num (i : Int)
  | nums (l : List Int)
  | marker (s : String)
  deriving DecidableEq

/-- Embedding of Device.meas n: run the transaction for MEAS<nn>?, then decode
the value line by selector exactly as the if/elif chain does (selectors 14 and
16 have their own branch in the source but also take the first two characters).
A failing int() raises ValueError; an unhandled selector logs and returns the
marker string without failing. -/
def meas (n : Nat) (reply : List String) : Except PyError MeasValue :=
  match transact reply with
  | Except.error e => Except.error (PyError.transact e)
  | Except.ok val =>
    if n ∈ ([0, 1, 2, 3] : List Nat) then
      match pyInt (pyTake 3 val) with
      | some i => Except.ok (MeasValue.num i)
      | none => Except.error PyError.valueError
    else if n ∈ ([4, 5, 18] : List Nat) then
      match pyInt (pyTake 4 val) with
      | some i => Except.ok (MeasValue.num i)
      | none => Except.error PyError.valueError
    else if n ∈ ([6, 10, 11, 12, 13, 15, 17] : List Nat) then
      match pyInt (pyTake 2 val) with
      | some i => Except.ok (MeasValue.num i)
      | none => Except.error PyError.valueError
    else if n ∈ ([14, 16] : List Nat) then
      match pyInt (pyTake 2 val) with
      | some i => Except.ok (MeasValue.num i)
      | none => Except.error PyError.valueError
    else if n = 99 then
      match pyIntFields val with
      | some l => Except.ok (MeasValue.nums l)
      | none => Except.error PyError.valueError
    else
      Except.ok (MeasValue.marker ("n=" ++ padZero 2 n))

/-! ## Device.pwm and Device.commands (single-instance view of the log) -/

/-- Embedding of Device.pwm on the resolved command log list. Returns the
outcome and the log after the call. With x present the command PWM<n>S<xxx> is
sent and appended to the log only after the transaction returned (the append
precedes the int() conversion in the source, so a ValueError from int() leaves
the command logged). With x absent the query PWM<n>? is sent and the log is
never touched. Transaction failures propagate. -/
def pwm (cmds : List String) (n : Nat) (x : Option Nat) (reply : List String) :
    Except PyError Int × List String :=
  match x with
  | none =>
    match transact reply with
    | Except.error e => (Except.error (PyError.transact e), cmds)
    | Except.ok val =>
      match pyInt val with
      | some i => (Except.ok i, cmds)
      | none => (Except.error PyError.valueError, cmds)
  | some xv =>
    let cmd := "PWM" ++ toString n ++ "S" ++ padZero 3 xv ++ "\n"
    match transact reply with
    | Except.error e => (Except.error (PyError.transact e), cmds)
    | Except.ok val =>
      let cmds2 := cmds ++ [cmd]
      match pyInt val with
      | some i => (Except.ok i, cmds2)
      | none => (Except.error PyError.valueError, cmds2)

/-- Python sep.join(l): the elements of l concatenated with sep between
consecutive elements. -/
def pyJoin (sep : String) : List String → String
  | [] => ""
  | [s] => s
  | s :: r :: rest => s ++ sep ++ pyJoin sep (r :: rest)

/-- Embedding of Device.commands on the resolved command log list: join the
stored commands with commas, replace linefeeds by spaces, delete every stored
command, and return the joined string. One state transition performs both the
read and the clear. -/
def commands (cmds : List String) : String × List String :=
  (replaceLF (pyJoin "," cmds), [])

/-! ## Theorems about the transaction engine -/

/-- Replacing linefeeds distributes over string concatenation. -/
theorem replaceLF_append (a b : String) : replaceLF (a ++ b) = replaceLF a ++ replaceLF b := by
  apply String.ext
  simp [replaceLF, String.data_append]

/-- Replacing linefeeds in a comma join is the comma join of the replaced
pieces, because the separator contains no linefeed. -/
theorem replaceLF_pyJoin (cmds : List String) :
    replaceLF (pyJoin "," cmds) = pyJoin "," (cmds.map replaceLF) := by
  induction cmds with
  | nil => rfl
  | cons s rest ih =>
    cases rest with
    | nil => rfl
    | cons r rest2 =>
      simp only [pyJoin, List.map_cons, replaceLF_append] at *
      rw [ih]
      rfl

/-- C3: send classifies the reply exactly by the grammar: a single reply line
OK returns OK; a single reply line ERROR fails with the device error; a value
line followed by a second line OK returns the value; a value line followed by
any other second line fails with a protocol violation. -/
theorem transact_reply_grammar (v l2 : String) (hv1 : v ≠ "OK") (hv2 : v ≠ "ERROR") :
    transact ["OK"] = Except.ok "OK" ∧
    transact ["ERROR"] = Except.error TransactError.deviceError ∧
    transact [v, "OK"] = Except.ok v ∧
    (l2 ≠ "OK" → transact [v, l2] = Except.error TransactError.protocolViolation) := by
  refine ⟨rfl, rfl, ?_, fun h => ?_⟩
  · simp [transact, hv1, hv2]
  · simp [transact, hv1, hv2, h]

/-- Witness for the reply grammar at the concrete replies of the spec. -/
theorem transact_reply_grammar_witness :
    transact ["OK"] = Except.ok "OK" ∧
    transact ["ERROR"] = Except.error TransactError.deviceError ∧
    transact ["123", "OK"] = Except.ok "123" ∧
    transact ["123", "JUNK"] = Except.error TransactError.protocolViolation := by
  have h := transact_reply_grammar "123" "JUNK" (by decide) (by decide)
  exact ⟨h.1, h.2.1, h.2.2.1, h.2.2.2 (by decide)⟩

/-- C4: when the transaction succeeds with value line v, meas decodes by
selector: 0 to 3 parse the first three characters, 4, 5 and 18 the first
four, the selectors 6 and 10 to 17 the first two, 99 splits on whitespace and
parses every token in order, and any other selector yields the opaque marker
without failing. -/
theorem meas_selector_decode (n : Nat) (v : String) (reply : List String)
    (hok : transact reply = Except.ok v) :
    (n ∈ ([0, 1, 2, 3] : List Nat) →
      ∀ i, pyInt (pyTake 3 v) = some i → meas n reply = Except.ok (MeasValue.num i)) ∧
    (n ∈ ([4, 5, 18] : List Nat) →
      ∀ i, pyInt (pyTake 4 v) = some i → meas n reply = Except.ok (MeasValue.num i)) ∧
    (n ∈ ([6, 10, 11, 12, 13, 14, 15, 16, 17] : List Nat) →
      ∀ i, pyInt (pyTake 2 v) = some i → meas n reply = Except.ok (MeasValue.num i)) ∧
    (n = 99 →
      ∀ l, pyIntFields v = some l → meas n reply = Except.ok (MeasValue.nums l)) ∧
    (n ∉ ([0, 1, 2, 3, 4, 5, 6, 10, 11, 12, 13, 14, 15, 16, 17, 18, 99] : List Nat) →
      meas n reply = Except.ok (MeasValue.marker ("n=" ++ padZero 2 n))) := by
  refine ⟨fun hmem i hi => ?_, fun hmem i hi => ?_, fun hmem i hi => ?_,
    fun hmem l hl => ?_, fun hmem => ?_⟩
  · fin_cases hmem <;> simp [meas, hok, hi]
  · fin_cases hmem <;> simp [meas, hok, hi]
  · fin_cases hmem <;> simp [meas, hok, hi]
  · subst hmem; simp [meas, hok, hl]
  · simp only [List.mem_cons, List.not_mem_nil, not_or, or_false] at hmem
    obtain ⟨h0, h1, h2, h3, h4, h5, h6, h10, h11, h12, h13, h14, h15, h16, h17, h18, h99⟩ := hmem
    simp [meas, hok, h0, h1, h2, h3, h4, h5, h6, h10, h11, h12, h13, h14, h15, h16, h17, h18, h99]

/-- Witness for the selector decode at the concrete replies of the spec. -/
theorem meas_selector_decode_witness :
    meas 0 ["123 V", "OK"] = Except.ok (MeasValue.num 123) ∧
    meas 4 ["1234 mV", "OK"] = Except.ok (MeasValue.num 1234) ∧
    meas 99 ["1 2 3", "OK"] = Except.ok (MeasValue.nums [1, 2, 3]) ∧
    meas 42 ["77", "OK"] = Except.ok (MeasValue.marker "n=42") := by
  refine ⟨?_, ?_, ?_, ?_⟩
  · exact (meas_selector_decode 0 "123 V" ["123 V", "OK"] rfl).1 (by decide) 123 rfl
  · exact (meas_selector_decode 4 "1234 mV" ["1234 mV", "OK"] rfl).2.1 (by decide) 1234 rfl
  · exact (meas_selector_decode 99 "1 2 3" ["1 2 3", "OK"] rfl).2.2.2.1 rfl [1, 2, 3] rfl
  · exact (meas_selector_decode 42 "77" ["77", "OK"] rfl).2.2.2.2 (by decide)

/-- C5: commands returns all logged commands joined into a single
comma-delimited string, with linefeeds flattened to spaces, and leaves the log
empty; the read and the clear are one state transition of the embedding, so no
state with a partially drained log exists. -/
theorem commands_drains_atomically (cmds : List String) :
    (commands cmds).1 = pyJoin "," (cmds.map replaceLF) ∧ (commands cmds).2 = [] :=
  ⟨replaceLF_pyJoin cmds, rfl⟩

/-- Witness for the drain at a concrete two-element log. -/
theorem commands_drains_atomically_witness :
    (commands ["PWM1S005\n", "PWM2S010\n"]).1 = "PWM1S005 ,PWM2S010 " ∧
    (commands ["PWM1S005\n", "PWM2S010\n"]).2 = [] := by
  have h := commands_drains_atomically ["PWM1S005\n", "PWM2S010\n"]
  exact ⟨h.1.trans rfl, h.2⟩

/-- C6: a set-form pwm call appends exactly the issued command to the end of
the log when the transaction is confirmed, and on a transaction failure the
failure propagates while the log is unchanged. -/
theorem pwm_set_logs_accepted_commands (cmds : List String) (n xv : Nat) (reply : List String) :
    (∀ v, transact reply = Except.ok v →
      (pwm cmds n (some xv) reply).2 =
        cmds ++ ["PWM" ++ toString n ++ "S" ++ padZero 3 xv ++ "\n"]) ∧
    (∀ e, transact reply = Except.error e →
      pwm cmds n (some xv) reply = (Except.error (PyError.transact e), cmds)) := by
  constructor
  · intro v hv
    simp only [pwm, hv]
    cases pyInt v <;> simp
  · intro e he
    simp [pwm, he]

/-- Witness for pwm logging at a confirmed set command and at a device error. -/
theorem pwm_set_logs_accepted_commands_witness :
    (pwm [] 1 (some 5) ["042", "OK"]).2 = ["PWM1S005\n"] ∧
    pwm [] 1 (some 5) ["ERROR"] = (Except.error (PyError.transact TransactError.deviceError), []) := by
  have h1 := (pwm_set_logs_accepted_commands [] 1 5 ["042", "OK"]).1 "042" rfl
  have h2 := (pwm_set_logs_accepted_commands [] 1 5 ["ERROR"]).2 TransactError.deviceError rfl
  exact ⟨h1.trans rfl, h2⟩

/-! ## IntervalScheduler

Wall-clock instants and intervals are modelled as rationals; the scheduler
only adds, subtracts and compares them. A call of time.sleep(d) under the
deterministic-clock model completes exactly d seconds later, so the clock
value after the sleep in next() is the wake field of the result. -/

/-- Event flag HEARTBEAT of IntervalScheduler. -/
def HEARTBEAT : Nat := 0x01

/-- Event flag MEASUREMENT of IntervalScheduler. -/
def MEASUREMENT : Nat := 0x02

/-- State of an IntervalScheduler instance: the two sources named Heartbeat
and Measurement, each with fields INTERVAL and NEXTEVENT, plus the coalescing
time window. -/
structure SchedState where
  hbInterval : ℚ
  hbNext : ℚ
  mInterval : ℚ
  mNext : ℚ
  timeWindow : ℚ
  deriving DecidableEq

/-- Result of one call of IntervalScheduler.next: the event flag field, the
clock value when the sleep completed, and the state after rescheduling. -/
structure NextResult where
  events : Nat
  wake : ℚ
  state : SchedState
  deriving DecidableEq

/-- Embedding of IntervalScheduler.next, with now the value of time.time() at
entry. The minimum NEXTEVENT is computed, the call sleeps for the positive
part of that minimum minus now, and the trigger time is now plus the window,
where now is still the entry time, not the time after the sleep. Each source
strictly below the trigger time is flagged and rescheduled by adding its own
interval to its prior NEXTEVENT. -/
def SchedState.next (st : SchedState) (now : ℚ) : NextResult :=
  let nextEvent := min st.hbNext st.mNext
  let sleepDuration := nextEvent - now
  let wake := if 0 < sleepDuration then now + sleepDuration else now
  let triggerTime := now + st.timeWindow
  let p1 :=
    if st.hbNext < triggerTime then
      (HEARTBEAT, { st with hbNext := st.hbNext + st.hbInterval })
    else ((0 : Nat), st)
  let p2 :=
    if p1.2.mNext < triggerTime then
      (p1.1 ||| MEASUREMENT, { p1.2 with mNext := p1.2.mNext + p1.2.mInterval })
    else p1
  ⟨p2.1, wake, p2.2⟩

/-- Embedding of IntervalScheduler.measurement: with an argument it assigns
the Measurement INTERVAL field, and it returns the current (possibly just
assigned) Measurement INTERVAL. -/
def SchedState.measurement (st : SchedState) (interval : Option ℚ) : ℚ × SchedState :=
  match interval with
  | some i => (i, { st with mInterval := i })
  | none => (st.mInterval, st)

/-! ## Theorems about the scheduler -/

/-- One call of next fires exactly the sources strictly below the entry time
plus the window, advances each fired source by its own interval, and leaves
everything else unchanged. -/
theorem next_call_spec (st : SchedState) (now : ℚ) :
    ((st.next now).events &&& HEARTBEAT ≠ 0 ↔ st.hbNext < now + st.timeWindow) ∧
    ((st.next now).events &&& MEASUREMENT ≠ 0 ↔ st.mNext < now + st.timeWindow) ∧
    (st.next now).state.hbNext =
      (if st.hbNext < now + st.timeWindow then st.hbNext + st.hbInterval else st.hbNext) ∧
    (st.next now).state.mNext =
      (if st.mNext < now + st.timeWindow then st.mNext + st.mInterval else st.mNext) ∧
    (st.next now).state.hbInterval = st.hbInterval ∧
    (st.next now).state.mInterval = st.mInterval ∧
    (st.next now).state.timeWindow = st.timeWindow := by
  by_cases hb : st.hbNext < now + st.timeWindow <;>
    by_cases hm : st.mNext < now + st.timeWindow <;>
      simp [SchedState.next, hb, hm, HEARTBEAT, MEASUREMENT]

/-- The sleep in next completes at the minimum next-fire time, or immediately
when that time has already passed. -/
theorem next_wake_spec (st : SchedState) (now : ℚ) :
    (st.next now).wake = max now (min st.hbNext st.mNext) := by
  simp only [SchedState.next]
  rcases le_or_lt (min st.hbNext st.mNext) now with h | h
  · rw [if_neg (by linarith), max_eq_left h]
  · rw [if_pos (by linarith), max_eq_right h.le]
    ring

/-- C2 as amended: every call of next sleeps until the minimum next-fire time
across the sources; the firing threshold is the entry time plus the window (it
is not the wake time plus the window); exactly the sources strictly below that
threshold are reported fired and are rescheduled by adding their own interval,
the others are untouched; consequently a call whose sleep reaches past the
threshold reports nothing, and for a positive window the due source fires in
the immediately following call entered at the wake time, so no source is ever
skipped and every firing advances its source by exactly one interval. -/
theorem next_characterization (st : SchedState) (now : ℚ) :
    (st.next now).wake = max now (min st.hbNext st.mNext) ∧
    ((st.next now).events &&& HEARTBEAT ≠ 0 ↔ st.hbNext < now + st.timeWindow) ∧
    ((st.next now).events &&& MEASUREMENT ≠ 0 ↔ st.mNext < now + st.timeWindow) ∧
    (st.next now).state.hbNext =
      (if st.hbNext < now + st.timeWindow then st.hbNext + st.hbInterval else st.hbNext) ∧
    (st.next now).state.mNext =
      (if st.mNext < now + st.timeWindow then st.mNext + st.mInterval else st.mNext) ∧
    (st.next now).state.hbInterval = st.hbInterval ∧
    (st.next now).state.mInterval = st.mInterval ∧
    (st.next now).state.timeWindow = st.timeWindow ∧
    (0 < st.timeWindow → st.hbNext ≤ st.mNext → ¬ st.hbNext < now + st.timeWindow →
      ((st.next now).state.next (st.next now).wake).events &&& HEARTBEAT ≠ 0) ∧
    (0 < st.timeWindow → st.mNext ≤ st.hbNext → ¬ st.mNext < now + st.timeWindow →
      ((st.next now).state.next (st.next now).wake).events &&& MEASUREMENT ≠ 0) := by
  obtain ⟨e1, e2, s1, s2, s3, s4, s5⟩ := next_call_spec st now
  refine ⟨next_wake_spec st now, e1, e2, s1, s2, s3, s4, s5, ?_, ?_⟩
  · intro hw hle hnot
    have hmnot : ¬ st.mNext < now + st.timeWindow := fun h => hnot (lt_of_le_of_lt hle h)
    have hhb : (st.next now).state.hbNext = st.hbNext := by rw [s1, if_neg hnot]
    have hwk : (st.next now).wake = st.hbNext := by
      rw [next_wake_spec st now, min_eq_left hle, max_eq_right]
      linarith
    refine ((next_call_spec (st.next now).state (st.next now).wake).1).mpr ?_
    rw [hhb, hwk, s5]
    linarith
  · intro hw hle hnot
    have hhbnot : ¬ st.hbNext < now + st.timeWindow := fun h => hnot (lt_of_le_of_lt hle h)
    have hm : (st.next now).state.mNext = st.mNext := by rw [s2, if_neg hnot]
    have hwk : (st.next now).wake = st.mNext := by
      rw [next_wake_spec st now, min_eq_right hle, max_eq_right]
      linarith
    refine ((next_call_spec (st.next now).state (st.next now).wake).2.1).mpr ?_
    rw [hm, hwk, s5]
    linarith

/-- Witness for the amended scheduler claim: with window 1, heartbeat due at 2
and measurement at 3, a call entered at 0 fires nothing and the follow-up call
entered at the wake time fires the heartbeat. -/
theorem next_characterization_witness :
    ((SchedState.next ⟨1, 2, 5, 3, 1⟩ 0).state.next (SchedState.next ⟨1, 2, 5, 3, 1⟩ 0).wake).events
      &&& HEARTBEAT ≠ 0 ∧
    (SchedState.next ⟨1, 2, 5, 3, 1⟩ 0).events &&& HEARTBEAT = 0 := by
  have h := next_characterization ⟨1, 2, 5, 3, 1⟩ 0
  constructor
  · exact h.2.2.2.2.2.2.2.2.1 (by norm_num) (by norm_num) (by norm_num)
  · have := h.2.1
    simp only [ne_eq, iff_iff_implies_and_implies] at this
    by_contra hne
    exact absurd (this.1 hne) (by norm_num)

/-- Counterexample to C2 as stated: heartbeat due at 5, measurement at 9,
window 1, call entered at 0. The sleep completes at 5 and the heartbeat
next-fire time 5 is below the wake time plus the window, yet the returned
fired set does not contain the heartbeat, because the code computes the
threshold from the entry time 0, not from the wake time. -/
theorem next_wake_threshold_cex :
    (SchedState.next ⟨1, 5, 7, 9, 1⟩ 0).wake = 5 ∧
    (5 : ℚ) < (SchedState.next ⟨1, 5, 7, 9, 1⟩ 0).wake + 1 ∧
    (SchedState.next ⟨1, 5, 7, 9, 1⟩ 0).events &&& HEARTBEAT = 0 := by
  refine ⟨?_, ?_, ?_⟩ <;> norm_num [SchedState.next, min_def, HEARTBEAT, MEASUREMENT]

/-- C9: the interval accessor with a new value changes only the Measurement
interval used by future reschedules: the scheduled next-fire times, the
heartbeat fields and the window are unchanged, the fired sets of a subsequent
call are identical, and the new interval first takes effect when the source is
next rescheduled. -/
theorem measurement_accessor_frame (st : SchedState) (v : ℚ) :
    (st.measurement (some v)).1 = v ∧
    (st.measurement (some v)).2.mInterval = v ∧
    (st.measurement (some v)).2.mNext = st.mNext ∧
    (st.measurement (some v)).2.hbNext = st.hbNext ∧
    (st.measurement (some v)).2.hbInterval = st.hbInterval ∧
    (st.measurement (some v)).2.timeWindow = st.timeWindow ∧
    (∀ now : ℚ, ((st.measurement (some v)).2.next now).events = (st.next now).events) ∧
    (∀ now : ℚ, st.mNext < now + st.timeWindow →
      ((st.measurement (some v)).2.next now).state.mNext = st.mNext + v) := by
  refine ⟨rfl, rfl, rfl, rfl, rfl, rfl, fun now => ?_, fun now h => ?_⟩
  · by_cases hb : st.hbNext < now + st.timeWindow <;>
      by_cases hm : st.mNext < now + st.timeWindow <;>
        simp [SchedState.next, SchedState.measurement, hb, hm]
  · have := (next_call_spec (st.measurement (some v)).2 now).2.2.2.1
    simp only [SchedState.measurement] at this ⊢
    rw [this, if_pos h]

/-- Witness for the accessor frame claim: setting the interval to 7 leaves the
scheduled fire time 3 in place, and the reschedule at a call entered at 3 adds
the new interval, moving the source to 10. -/
theorem measurement_accessor_frame_witness :
    (SchedState.measurement ⟨1, 2, 5, 3, 1⟩ (some 7)).2.mNext = 3 ∧
    ((SchedState.measurement ⟨1, 2, 5, 3, 1⟩ (some 7)).2.next 3).state.mNext = 10 := by
  have h := measurement_accessor_frame ⟨1, 2, 5, 3, 1⟩ 7
  refine ⟨h.2.2.1, ?_⟩
  have := h.2.2.2.2.2.2.2 3 (by norm_num)
  rw [this]
  norm_num

/-- The escape-sequence table of KeyboardInput.py, keys transcribed byte for
byte in source order (every translated sequence of two or more bytes starts
with the escape byte 0x1b; single control bytes map to multi-character
names). -/
def translate : List (List Nat × String) :=
  [([0x1b], "ESC"),
   ([0x1b, 0x4f, 0x50], "F1"),
   ([0x1b, 0x5b, 0x31, 0x31, 0x7e], "F1"),
   ([0x1b, 0x4f, 0x51], "F2"),
   ([0x1b, 0x5b, 0x31, 0x32, 0x7e], "F2"),
   ([0x1b, 0x4f, 0x52], "F3"),
   ([0x1b, 0x5b, 0x31, 0x33, 0x7e], "F3"),
   ([0x1b, 0x4f, 0x53], "F4"),
   ([0x1b, 0x5b, 0x31, 0x34, 0x7e], "F4"),
   ([0x1b, 0x5b, 0x31, 0x35, 0x7e], "F5"),
   ([0x1b, 0x5b, 0x31, 0x37, 0x7e], "F6"),
   ([0x1b, 0x5b, 0x31, 0x38, 0x7e], "F7"),
   ([0x1b, 0x5b, 0x31, 0x39, 0x7e], "F8"),
   ([0x1b, 0x5b, 0x32, 0x30, 0x7e], "F9"),
   ([0x1b, 0x5b, 0x32, 0x31, 0x7e], "F10"),
   ([0x1b, 0x5b, 0x32, 0x33, 0x7e], "F11"),
   ([0x1b, 0x5b, 0x32, 0x34, 0x7e], "F12"),
   ([0x1b, 0x5b, 0x31, 0x7e], "HOME"),
   ([0x1b, 0x5b, 0x32, 0x7e], "INS"),
   ([0x1b, 0x5b, 0x33, 0x7e], "DEL"),
   ([0x1b, 0x5b, 0x34, 0x7e], "END"),
   ([0x1b, 0x5b, 0x35, 0x7e], "PAGEUP"),
   ([0x1b, 0x5b, 0x36, 0x7e], "PAGEDOWN"),
   ([0x1b, 0x5b, 0x41], "UP"),
   ([0x1b, 0x5b, 0x42], "DOWN"),
   ([0x1b, 0x5b, 0x43], "RIGHT"),
   ([0x1b, 0x5b, 0x44], "LEFT"),
   ([0x1b, 0x4f, 0x41], "UP"),
   ([0x1b, 0x4f, 0x42], "DOWN"),
   ([0x1b, 0x4f, 0x43], "RIGHT"),
   ([0x1b, 0x4f, 0x44], "LEFT"),
   ([0x7f], "BACKSPACE"),
   ([0x0a], "ENTER"),
   ([0x0d], "ENTER"),
   ([0x09], "TAB"),
   ([0x1b, 0x5b, 0x5a], "SHIFT-TAB")]

/-- Dictionary lookup translate[chunk]: the keys are distinct, so first-match
search equals Python dict indexing; none models the KeyError path. -/
def translateLookup (chunk : List Nat) : Option String :=
  (translate.find? (fun p => p.1 == chunk)).map Prod.snd

/-- State of a KeyboardInput object: the look-ahead chunk (none models the
Python None returned by a non-blocking read with no data) and the bytes
currently available from the raw source. -/
structure KB where
  chunk : Option (List Nat)
  source : List Nat
  deriving DecidableEq

/-- Non-blocking raw.read(n): none when no byte is available, otherwise up to
n bytes consumed from the source. -/
def KB.rawRead (st : KB) (n : Nat) : Option (List Nat) × KB :=
  if st.source.isEmpty then (none, st)
  else (some (st.source.take n), { st with source := st.source.drop n })

/-- Embedding of KeyboardInput.__iter__: refill the chunk with a read of up
to five bytes. -/
def KB.iter (st : KB) : KB :=
  let p := st.rawRead 5
  { p.2 with chunk := p.1 }

/-- Python chunk[:1].decode of a single byte: ASCII decodes to itself, any
byte at or above 128 is invalid alone as text and falls back to the question
mark placeholder, and an empty slice decodes to the empty string. -/
def decodeByte1 : List Nat → String
  | [] => ""
  | b :: _ => if b < 128 then String.singleton (Char.ofNat b) else "?"

/-- Embedding of KeyboardInput.__next__: raise StopIteration on an empty
chunk (none token); emit the symbolic token on an exact table match and
consume the chunk; on a failed match starting with the escape byte, drain all
currently available source bytes and emit nothing; otherwise decode exactly
one byte as a one-character token, keep the remainder buffered, and replenish
the chunk from the source when it empties. -/
def KB.next (st : KB) : Option String × KB :=
  match st.chunk with
  | none => (none, st)
  | some c =>
    match translateLookup c with
    | some key => (some key, { st with chunk := none })
    | none =>
      if c.take 1 = [0x1b] then
        (none, { st with source := [] })
      else
        let ch := decodeByte1 c
        let rest := c.drop 1
        if rest.isEmpty then
          let p := st.rawRead 5
          (some ch, { p.2 with chunk := p.1 })
        else
          (some ch, { st with chunk := some rest })

/-- C7: for each decoder invocation on buffered bytes, an exact table match
emits the symbolic token and consumes the matched bytes; no match with a
leading escape byte drains all currently available bytes and emits no token;
otherwise exactly one byte is decoded as a single-character token, the
remainder stays buffered, and the buffer is replenished when it empties. -/
theorem kb_next_cases (st : KB) (c : List Nat) (hc : st.chunk = some c) :
    (∀ k, translateLookup c = some k → st.next = (some k, { st with chunk := none })) ∧
    (translateLookup c = none → c.take 1 = [0x1b] →
      st.next = (none, { st with source := [] })) ∧
    (translateLookup c = none → c.take 1 ≠ [0x1b] →
      st.next.1 = some (decodeByte1 c) ∧
      ((c.drop 1).isEmpty = false → st.next.2 = { st with chunk := some (c.drop 1) }) ∧
      ((c.drop 1).isEmpty = true →
        st.next.2 = { (st.rawRead 5).2 with chunk := (st.rawRead 5).1 })) := by
  refine ⟨fun k hk => ?_, fun h1 h2 => ?_, fun h1 h2 => ⟨?_, fun h3 => ?_, fun h3 => ?_⟩⟩
  · simp [KB.next, hc, hk]
  · simp [KB.next, hc, h1, h2]
  · simp only [KB.next, hc, h1]
    rw [if_neg h2]
    split <;> rfl
  · rw [List.drop_one] at h3
    simp only [KB.next, hc, h1]
    rw [if_neg h2, List.drop_one, if_neg (by simp [h3])]
  · rw [List.drop_one] at h3
    simp only [KB.next, hc, h1]
    rw [if_neg h2, List.drop_one, if_pos h3]

/-- Witness for the decoder cases at the three example inputs of the spec:
escape bracket A yields UP, the byte of the letter a yields the token a with
the buffer replenished, and an unrecognised escape sequence yields no token
while the source is drained. -/
theorem kb_next_cases_witness :
    KB.next ⟨some [0x1b, 0x5b, 0x41], []⟩ = (some "UP", ⟨none, []⟩) ∧
    (KB.next ⟨some [97], [98]⟩).1 = some "a" ∧
    (KB.next ⟨some [97], [98]⟩).2 = ⟨some [98], []⟩ ∧
    KB.next ⟨some [0x1b, 0x5a, 0x5a, 0x5a], [99]⟩ = (none, ⟨some [0x1b, 0x5a, 0x5a, 0x5a], []⟩) := by
  have h1 := (kb_next_cases ⟨some [0x1b, 0x5b, 0x41], []⟩ [0x1b, 0x5b, 0x41] rfl).1 "UP" rfl
  have h2 := (kb_next_cases ⟨some [97], [98]⟩ [97] rfl).2.2 rfl (by decide)
  have h3 := (kb_next_cases ⟨some [0x1b, 0x5a, 0x5a, 0x5a], [99]⟩ [0x1b, 0x5a, 0x5a, 0x5a] rfl).2.1
      rfl rfl
  exact ⟨h1, h2.1, (h2.2.2 rfl).trans rfl, h3⟩



/-- Embedding of the example consumer class InputConsumer of
KeyboardInput.py. The print calls of the source are console output with no
effect on the object and are not modelled. The class attributes active,
buffer and value hold immutable values and every method access rebinds them
on the instance, so they behave as per-instance fields. -/
structure InputConsumer where
  trigger : String
  active : Bool
  buffer : String
  value : String
  deriving DecidableEq

/-- An InputConsumer as constructed: trigger set, inactive, empty buffers. -/
def InputConsumer.init (trigger : String) : InputConsumer :=
  ⟨trigger, false, "", ""⟩

/-- Embedding of InputConsumer.process_input: returns the reported activity
and the consumer afterwards. -/
def InputConsumer.processInput (c : InputConsumer) (key : String) : Bool × InputConsumer :=
  if c.active = false then
    if key = c.trigger then (true, { c with active := true }) else (false, c)
  else if key = "ESC" ∨ key = c.trigger then
    (false, { c with buffer := "", active := false })
  else if key = "DEL" ∨ key = "BACKSPACE" then
    (true, if 0 < c.buffer.length then { c with buffer := ⟨c.buffer.data.dropLast⟩ } else c)
  else if key = "ENTER" then
    (false, { c with value := c.buffer, buffer := "", active := false })
  else if key.length = 1 then
    (true, { c with buffer := c.buffer ++ key })
  else
    (true, c)

/-- The for-loop of InputConsumerManagement.input when no consumer is active:
offer the key to each registered consumer in order, stopping at the first that
returns true; returns the consumers afterwards and the index of the consumer
that became active, if any. The step function pin abstracts the duck-typed
process_input method of the registered objects. -/
def offerAll {σ : Type} (pin : σ → String → Bool × σ) (key : String) :
    List σ → List σ × Option Nat
  | [] => ([], none)
  | c :: cs =>
    let p := pin c key
    if p.1 then (p.2 :: cs, some 0)
    else
      let q := offerAll pin key cs
      (p.2 :: q.1, q.2.map (fun i => i + 1))

/-- Single-instance view of InputConsumerManagement: the registered consumers
in registration order and the index of the active consumer. The Python field
active_consumer holds a reference to an object of the consumers list; the
index identifies it, so mutation through either path is the same update. -/
structure Router (σ : Type) where
  consumers : List σ
  activeConsumer : Option Nat

/-- Embedding of InputConsumerManagement.add: append to the consumers list. -/
def Router.add {σ : Type} (st : Router σ) (c : σ) : Router σ :=
  { st with consumers := st.consumers ++ [c] }

/-- Embedding of InputConsumerManagement.input. With no active consumer the
key is offered in registration order; the first consumer that returns true
becomes active. With an active consumer the key goes only to it, and a false
return clears the slot. Indices produced by input always point into the list,
so the defensive none branch of the lookup is unreachable from valid states. -/
def Router.input {σ : Type} (pin : σ → String → Bool × σ) (st : Router σ) (key : String) :
    Router σ :=
  match st.activeConsumer with
  | none =>
    let q := offerAll pin key st.consumers
    ⟨q.1, q.2⟩
  | some i =>
    match st.consumers[i]? with
    | none => st
    | some c =>
      let p := pin c key
      ⟨st.consumers.set i p.2, if p.1 then some i else none⟩

/-- When the offer loop reports an activated index, that index carries the
first consumer that returned true: every earlier consumer was offered the key
and declined, the activated slot holds the updated consumer, and every later
consumer is untouched. -/
theorem offerAll_some {σ : Type} (pin : σ → String → Bool × σ) (key : String) :
    ∀ (cs : List σ) (i : Nat), (offerAll pin key cs).2 = some i →
      i < cs.length ∧
      (∀ c, cs[i]? = some c →
        (pin c key).1 = true ∧ (offerAll pin key cs).1[i]? = some (pin c key).2) ∧
      (∀ j c, j < i → cs[j]? = some c → (pin c key).1 = false) ∧
      (∀ j, i < j → (offerAll pin key cs).1[j]? = cs[j]?) := by
  intro cs
  induction cs with
  | nil => intro i h; simp [offerAll] at h
  | cons c cs ih =>
    intro i h
    by_cases hp : (pin c key).1
    · simp [offerAll, hp] at h
      subst h
      refine ⟨by simp, fun c0 hc0 => ?_, fun j c0 hj => by omega, fun j hj => ?_⟩
      · simp at hc0
        subst hc0
        simp [offerAll, hp]
      · obtain ⟨k, rfl⟩ := Nat.exists_eq_add_of_lt hj
        simp [offerAll, hp]
    · simp [offerAll, hp] at h
      obtain ⟨i0, hi0, rfl⟩ := h
      obtain ⟨g1, g2, g3, g4⟩ := ih i0 hi0
      refine ⟨by simpa using g1, fun c0 hc0 => ?_, fun j c0 hj hc0 => ?_, fun j hj => ?_⟩
      · simp at hc0
        have := g2 c0 hc0
        simpa [offerAll, hp] using this
      · match j with
        | 0 =>
          simp at hc0
          subst hc0
          simpa using hp
        | j + 1 =>
          simp at hc0
          exact g3 j c0 (by omega) hc0
      · match j with
        | 0 => omega
        | j + 1 =>
          simpa [offerAll, hp] using g4 j (by omega)

/-- When the offer loop reports no activation, every registered consumer was
offered the key and declined. -/
theorem offerAll_none {σ : Type} (pin : σ → String → Bool × σ) (key : String) :
    ∀ (cs : List σ), (offerAll pin key cs).2 = none →
      ∀ (j : Nat) (c : σ), cs[j]? = some c → (pin c key).1 = false ∧
        (offerAll pin key cs).1[j]? = some (pin c key).2 := by
  intro cs
  induction cs with
  | nil => intro _ j c hc; simp at hc
  | cons c cs ih =>
    intro h j c0 hc0
    by_cases hp : (pin c key).1
    · simp [offerAll, hp] at h
    · simp [offerAll, hp] at h
      match j with
      | 0 =>
        simp at hc0
        subst hc0
        simp [offerAll, hp]
      | j + 1 =>
        simp at hc0
        simpa [offerAll, hp] using ih h j c0 hc0

/-- C8: dispatch keeps global mutual exclusion. With an active consumer the
token goes only to it (all other slots unchanged) and the single active slot
is kept exactly when it reports itself still active. With no active consumer
the token is offered in registration order; the consumer that becomes active
returned true, everyone before it declined, no consumer after it saw the
token, and when nobody triggers every consumer declined. The state holds at
most one active index by construction. -/
theorem router_dispatch {σ : Type} (pin : σ → String → Bool × σ) (st : Router σ) (key : String) :
    (∀ i c, st.activeConsumer = some i → st.consumers[i]? = some c →
      (Router.input pin st key).consumers[i]? = some (pin c key).2 ∧
      (∀ j, j ≠ i → (Router.input pin st key).consumers[j]? = st.consumers[j]?) ∧
      (Router.input pin st key).activeConsumer = (if (pin c key).1 then some i else none)) ∧
    (st.activeConsumer = none →
      (∀ i, (Router.input pin st key).activeConsumer = some i →
        ∃ c, st.consumers[i]? = some c ∧ (pin c key).1 = true ∧
          (Router.input pin st key).consumers[i]? = some (pin c key).2 ∧
          (∀ j cj, j < i → st.consumers[j]? = some cj → (pin cj key).1 = false) ∧
          (∀ j, i < j → (Router.input pin st key).consumers[j]? = st.consumers[j]?)) ∧
      ((Router.input pin st key).activeConsumer = none →
        ∀ (j : Nat) (c : σ), st.consumers[j]? = some c → (pin c key).1 = false)) := by
  constructor
  · intro i c hact hc
    have hlen : i < st.consumers.length := by
      by_contra hge
      rw [List.getElem?_eq_none (by omega)] at hc
      exact Option.noConfusion hc
    refine ⟨?_, fun j hj => ?_, ?_⟩
    · simp [Router.input, hact, hc, List.getElem?_set_eq_of_lt _ hlen]
    · simp [Router.input, hact, hc, List.getElem?_set_ne (fun h => hj h.symm)]
    · simp [Router.input, hact, hc]
  · intro hact
    constructor
    · intro i hi
      have h2 : (offerAll pin key st.consumers).2 = some i := by
        simpa [Router.input, hact] using hi
      obtain ⟨g1, g2, g3, g4⟩ := offerAll_some pin key st.consumers i h2
      have hc : st.consumers[i]? = some (st.consumers.get ⟨i, g1⟩) :=
        List.getElem?_eq_getElem g1
      refine ⟨st.consumers.get ⟨i, g1⟩, hc, (g2 _ hc).1, ?_, g3, fun j hj => ?_⟩
      · have := (g2 _ hc).2
        simpa [Router.input, hact] using this
      · have := g4 j hj
        simpa [Router.input, hact] using this
    · intro hnone j c hc
      have h2 : (offerAll pin key st.consumers).2 = none := by
        simpa [Router.input, hact] using hnone
      exact (offerAll_none pin key st.consumers h2 j c hc).1



/-- Witness for dispatch: feeding F1 to two fresh consumers leaves the second
untouched, and a token fed while a consumer is active keeps that consumer
active. -/
theorem router_dispatch_witness :
    (Router.input InputConsumer.processInput
        ⟨[InputConsumer.init "F1", InputConsumer.init "F2"], none⟩ "F1").consumers[1]? =
      some (InputConsumer.init "F2") ∧
    (Router.input InputConsumer.processInput ⟨[⟨"F1", true, "", ""⟩], some 0⟩ "x").activeConsumer =
      some 0 := by
  constructor
  · obtain ⟨c, hc1, hc2, hc3, hc4, hc5⟩ :=
      ((router_dispatch InputConsumer.processInput
          ⟨[InputConsumer.init "F1", InputConsumer.init "F2"], none⟩ "F1").2 rfl).1 0 rfl
    exact hc5 1 (by omega)
  · have hA := ((router_dispatch InputConsumer.processInput
        ⟨[⟨"F1", true, "", ""⟩], some 0⟩ "x").1 0 ⟨"F1", true, "", ""⟩ rfl rfl).2.2
    exact hA.trans rfl

/-- World state for InputConsumerManagement across several instances. The
class attribute consumers is a single list object: add resolves it to the
class attribute (no method ever binds it on an instance) and append mutates
it in place, so classConsumers is shared by all instances. The class
attribute active_consumer holds the immutable None; the assignments in input
are setattr on self and therefore create an entry in the dict of the calling
instance only, recorded in activeEntries (indexed by instance, none meaning
the instance dict has no entry). -/
structure ICMWorld (σ : Type) where
  classConsumers : List σ
  activeEntries : List (Option (Option Nat))
  deriving DecidableEq

/-- Attribute lookup of self.active_consumer for instance i: the instance
dict entry when present, else the class attribute None. -/
def ICMWorld.resolveActive {σ : Type} (w : ICMWorld σ) (i : Nat) : Option Nat :=
  match w.activeEntries[i]? with
  | some (some a) => a
  | _ => none

/-- Embedding of InputConsumerManagement.add called on instance i: the
attribute self.consumers resolves to the class-level list for every instance
and append mutates that shared object in place. -/
def ICM.add {σ : Type} (w : ICMWorld σ) (_i : Nat) (c : σ) : ICMWorld σ :=
  { w with classConsumers := w.classConsumers ++ [c] }

/-- Embedding of InputConsumerManagement.input called on instance i. The
assignments self.active_consumer = consumer and = None write the dict of
instance i only; when no consumer triggers, or while the active consumer
keeps returning true, no assignment happens and the entries are unchanged. -/
def ICM.input {σ : Type} (pin : σ → String → Bool × σ) (w : ICMWorld σ) (i : Nat)
    (key : String) : ICMWorld σ :=
  match w.resolveActive i with
  | none =>
    let q := offerAll pin key w.classConsumers
    match q.2 with
    | some a =>
      { w with classConsumers := q.1, activeEntries := w.activeEntries.set i (some (some a)) }
    | none => { w with classConsumers := q.1 }
  | some a =>
    match w.classConsumers[a]? with
    | none => w
    | some c =>
      let p := pin c key
      { w with classConsumers := w.classConsumers.set a p.2,
               activeEntries :=
                 if p.1 then w.activeEntries else w.activeEntries.set i (some none) }

/-- C10 as amended: the registered-consumer list is class-level state shared
across instances (add through any instance appends to the one shared list,
and dispatch through any instance with no own binding offers from that shared
list), but the active-consumer slot is not shared: the assignments in input
bind the attribute on the calling instance only, so input through one
instance never changes the active consumer another instance resolves. -/
theorem icm_sharing_characterization {σ : Type} (pin : σ → String → Bool × σ)
    (w : ICMWorld σ) (i j : Nat) (c : σ) (key : String) :
    (ICM.add w i c).classConsumers = w.classConsumers ++ [c] ∧
    (ICM.add w i c).activeEntries = w.activeEntries ∧
    (w.resolveActive j = none →
      (ICM.input pin w j key).classConsumers = (offerAll pin key w.classConsumers).1) ∧
    (j ≠ i → (ICM.input pin w i key).resolveActive j = w.resolveActive j) := by
  refine ⟨rfl, rfl, fun h => ?_, fun hne => ?_⟩
  · simp only [ICM.input, h]
    cases hq : (offerAll pin key w.classConsumers).2 <;> simp [hq]
  · simp only [ICM.input]
    cases ha : w.resolveActive i with
    | none =>
      cases hq : (offerAll pin key w.classConsumers).2 with
      | none => rfl
      | some a => simp [hq, ICMWorld.resolveActive, List.getElem?_set_ne hne.symm]
    | some a =>
      cases hg : w.classConsumers[a]? with
      | none => simp [hg]
      | some c0 =>
        by_cases hp : (pin c0 key).1 <;>
          simp [hg, hp, ICMWorld.resolveActive, List.getElem?_set_ne hne.symm]

/-- Counterexample to C10 as stated: after a consumer registered through
instance 0 is activated through instance 0, instance 0 resolves it as active
but instance 1 still resolves None, because the activating assignment bound
the attribute on instance 0 only. -/
theorem icm_active_not_shared_cex :
    (ICM.input InputConsumer.processInput
        (ICM.add ⟨[], [none, none]⟩ 0 (InputConsumer.init "F1")) 0 "F1").resolveActive 0 =
      some 0 ∧
    (ICM.input InputConsumer.processInput
        (ICM.add ⟨[], [none, none]⟩ 0 (InputConsumer.init "F1")) 0 "F1").resolveActive 1 =
      none :=
  ⟨rfl, rfl⟩

/-- Witness for the sharing characterization: a consumer added through
instance 0 is offered by a dispatch through instance 1, while the activation
through instance 0 leaves the slot resolved by instance 1 unchanged. -/
theorem icm_sharing_characterization_witness :
    (ICM.input InputConsumer.processInput
        (ICM.add ⟨[], [none, none]⟩ 0 (InputConsumer.init "F1")) 1 "F1").classConsumers =
      (offerAll InputConsumer.processInput "F1" [InputConsumer.init "F1"]).1 ∧
    (ICM.input InputConsumer.processInput
        (ICM.add ⟨[], [none, none]⟩ 0 (InputConsumer.init "F1")) 0 "F1").resolveActive 1 =
      none := by
  have h := icm_sharing_characterization InputConsumer.processInput
    (ICM.add ⟨[], [none, none]⟩ 0 (InputConsumer.init "F1")) 0 1 (InputConsumer.init "F1") "F1"
  exact ⟨h.2.2.1 rfl, h.2.2.2 (by omega)⟩

/-- World state for Device across several instances. The class attribute cmds
is a single list object; Device.__init__ assigns only port and logfile, and
no method ever binds cmds on an instance, so instEntries (the per-instance
dict entry for cmds) is none for every constructed instance. The append in
pwm and the slice deletion in commands mutate the resolved list in place and
never create an instance binding. -/
structure DeviceWorld where
  classCmds : List String
  instEntries : List (Option (List String))
  deriving DecidableEq

/-- Attribute lookup of self.cmds for instance d: the instance dict entry
when present, else the class-level list. -/
def DeviceWorld.resolveCmds (w : DeviceWorld) (d : Nat) : List String :=
  match w.instEntries[d]? with
  | some (some l) => l
  | _ => w.classCmds

/-- In-place append through the attribute resolution of self.cmds. -/
def DeviceWorld.appendCmd (w : DeviceWorld) (d : Nat) (cmd : String) : DeviceWorld :=
  match w.instEntries[d]? with
  | some (some l) => { w with instEntries := w.instEntries.set d (some (l ++ [cmd])) }
  | _ => { w with classCmds := w.classCmds ++ [cmd] }

/-- In-place clearing (del self.cmds[:]) through the attribute resolution. -/
def DeviceWorld.clearCmds (w : DeviceWorld) (d : Nat) : DeviceWorld :=
  match w.instEntries[d]? with
  | some (some _) => { w with instEntries := w.instEntries.set d (some []) }
  | _ => { w with classCmds := [] }

/-- Embedding of Device.pwm called on instance d, with the command log
resolved through the Python attribute rules of DeviceWorld. -/
def Device.pwmW (w : DeviceWorld) (d : Nat) (n : Nat) (x : Option Nat) (reply : List String) :
    Except PyError Int × DeviceWorld :=
  match x with
  | none =>
    match transact reply with
    | Except.error e => (Except.error (PyError.transact e), w)
    | Except.ok val =>
      match pyInt val with
      | some i => (Except.ok i, w)
      | none => (Except.error PyError.valueError, w)
  | some xv =>
    let cmd := "PWM" ++ toString n ++ "S" ++ padZero 3 xv ++ "
"
    match transact reply with
    | Except.error e => (Except.error (PyError.transact e), w)
    | Except.ok val =>
      let w2 := w.appendCmd d cmd
      match pyInt val with
      | some i => (Except.ok i, w2)
      | none => (Except.error PyError.valueError, w2)

/-- Embedding of Device.commands called on instance d: join and flatten the
resolved log, clear it in place, return the string. -/
def Device.commandsW (w : DeviceWorld) (d : Nat) : String × DeviceWorld :=
  ((commands (w.resolveCmds d)).1, w.clearCmds d)

/-- C1 is violated by the source: cmds is a class attribute bound to one list
object and Device.__init__ never rebinds it per instance, so a set command
issued through instance 0 is observable in the resolved log of instance 1 and
in the drain result of instance 1, while neither instance ever obtained an
own entry. -/
theorem device_log_shared_bug :
    DeviceWorld.resolveCmds
        (Device.pwmW ⟨[], [none, none]⟩ 0 1 (some 5) ["042", "OK"]).2 1 = ["PWM1S005\n"] ∧
    (Device.commandsW (Device.pwmW ⟨[], [none, none]⟩ 0 1 (some 5) ["042", "OK"]).2 1).1 =
      "PWM1S005 " ∧
    (Device.pwmW ⟨[], [none, none]⟩ 0 1 (some 5) ["042", "OK"]).2.instEntries = [none, none] :=
  ⟨rfl, rfl, rfl⟩

end PBBES
